import Mathlib

/-!
Verification of the geoarrow/deck.gl-layers data-generation scripts.

The scripts convert geospatial inputs into columnar (Arrow/feather) tables.
Coordinates and timestamps are floating-point values in the source; every
such value is a rational, so buffers are modelled over ℚ.  The trips script
assigns float64 JSON values into `dtype=np.float32` numpy buffers, silently
narrowing them: this narrowing is modelled explicitly (`toFloat32`,
round-to-nearest-even to a 24-bit significand) where a claim depends on the
stored values; claims about offsets, row counts and assertion reachability
are value-independent.  Machine integer widths (int32 offsets, uint8 vendor)
never overflow on the modelled operations: a Python int out of range raises
instead of wrapping, so offsets are modelled as naturals.
-/

namespace GeoArrowData

/-- A coordinate pair (x, y), per the data model of the scripts. -/
abbrev Coord : Type := ℚ × ℚ

/-! ### Model of the pyarrow array constructors used by the scripts -/

/-- Group a flat list into consecutive chunks of `k` elements
(the grouping performed by `pa.FixedSizeListArray.from_arrays(values, k)`). -/
def chunksOf : ℕ → List α → List (List α)
  | _, [] => []
  | 0, _ :: _ => []
  | k + 1, x :: t => (x :: t).take (k + 1) :: chunksOf (k + 1) ((x :: t).drop (k + 1))
termination_by _ xs => xs.length
decreasing_by
  simpa using Nat.lt_succ_of_le (Nat.sub_le _ _)

/-- Model of `pa.FixedSizeListArray.from_arrays(flat, k)`: errors unless the flat
buffer length is a multiple of the list size; otherwise groups into rows of
`k` values. -/
def fixedSizeListFromArrays (flat : List α) (k : ℕ) : Option (List (List α)) :=
  if k ≠ 0 ∧ flat.length % k = 0 then some (chunksOf k flat) else none

/-- The rows of `pa.ListArray.from_arrays(offsets, values)`: row `i` is the
slice of `values` between consecutive offsets. -/
def listSlices (offsets : List ℕ) (values : List α) : List (List α) :=
  match offsets with
  | s :: e :: rest => (values.drop s).take (e - s) :: listSlices (e :: rest) values
  | _ => []

/-! ### The trips script (`examples/trips/generate_data.py`) -/

/-- One element of the downloaded trips JSON: a trajectory (`path`), its
per-vertex `timestamps`, and a `vendor` id. -/
structure TripItem where
  path : List Coord
  timestamps : List ℚ
  vendor : ℕ

/-- One step of the counting loop: `coord_num += len(item["path"])`. -/
def tripStep (acc : ℕ) (it : TripItem) : ℕ := acc + it.path.length

/-- The offsets array built by the counting pass: `offsets[0] = 0` (from
`np.zeros`) and `offsets[i+1] = coord_num` after adding item `i`'s path
length. -/
def tripsOffsets (data : List TripItem) : List ℕ :=
  List.scanl tripStep 0 data

/-- Total coordinate count `coord_num` after the counting loop. -/
def coordNum (data : List TripItem) : ℕ := (data.map (fun it => it.path.length)).sum

/-- The per-item assertion of the counting loop:
`assert len(item["path"]) == len(item["timestamps"])`. -/
def tripsAsserts (data : List TripItem) : Bool :=
  data.all (fun it => it.path.length == it.timestamps.length)

/-- The counting pass: runs the per-item assertion and builds the offsets
array; `none` models an `AssertionError` aborting the script. -/
def countingPass (data : List TripItem) : Option (List ℕ) :=
  if tripsAsserts data then some (tripsOffsets data) else none

/-- numpy slice assignment `buf[s : s + len(vals)] = vals`. -/
def writeSlice (buf : List α) (s : ℕ) (vals : List α) : List α :=
  buf.take s ++ vals ++ buf.drop (s + vals.length)

/-- The flattening loop over `coords`: for each item, read
`start_offset = offsets[i]`, `end_offset = offsets[i+1]`, check the assertion
`end_offset - start_offset == path.shape[0]`, and write the path into the
buffer slice.  `none` models an `AssertionError` (or malformed offsets).
Values are copied exactly in this loop — adequate for the offset, count and
assertion claims, which do not depend on the stored values;
`flattenCoords32Loop` below is the same loop with the float32 narrowing the
real `dtype=np.float32` buffer performs. -/
def flattenCoordsLoop : List TripItem → List ℕ → List Coord → Option (List Coord)
  | [], _, buf => some buf
  | it :: rest, s :: e :: offs, buf =>
      if e - s = it.path.length then
        flattenCoordsLoop rest (e :: offs) (writeSlice buf s it.path)
      else none
  | _ :: _, _, _ => none

/-- The coords half of the flattening pass, starting from the zero-filled
buffer `np.zeros((coord_num, 2))`. -/
def flattenCoords (data : List TripItem) (offs : List ℕ) : Option (List Coord) :=
  flattenCoordsLoop data offs (List.replicate (coordNum data) (0, 0))

/-- The timestamps half of the flattening loop:
`timestamps[start_offset:end_offset] = item["timestamps"]`; numpy rejects a
slice assignment whose value length differs from the slice length, modelled
by the guard. -/
def flattenTimestampsLoop : List TripItem → List ℕ → List ℚ → Option (List ℚ)
  | [], _, buf => some buf
  | it :: rest, s :: e :: offs, buf =>
      if it.timestamps.length = e - s then
        flattenTimestampsLoop rest (e :: offs) (writeSlice buf s it.timestamps)
      else none
  | _ :: _, _, _ => none

/-- The timestamps buffer after the flattening pass, starting from
`np.zeros(coord_num)`. -/
def flattenTimestamps (data : List TripItem) (offs : List ℕ) : Option (List ℚ) :=
  flattenTimestampsLoop data offs (List.replicate (coordNum data) 0)

/-- Row-major flattening `coords.flatten("C")`: the row-major flat buffer of a list of pairs. -/
def flatXY (cs : List Coord) : List ℚ := cs.flatMap (fun c => [c.1, c.2])

/-- The output table of the trips script: `geometry` is
`pa.ListArray.from_arrays(offsets, coords_fixed_size_list)` (each row a list
of coordinate pairs), `timestamps` is `pa.ListArray.from_arrays(offsets,
timestamps)`, `vendor` is carried per item. -/
structure TripsTable where
  geometry : List (List Coord)
  timestamps : List (List ℚ)
  vendor : List ℕ
deriving DecidableEq

/-- The whole trips script: counting pass, flattening pass for coords and
timestamps, then table assembly. -/
def tripsScript (data : List TripItem) : Option TripsTable :=
  match countingPass data with
  | none => none
  | some offs =>
    match flattenCoords data offs with
    | none => none
    | some cbuf =>
      match flattenTimestamps data offs with
      | none => none
      | some tbuf =>
        some { geometry := listSlices offs cbuf
               timestamps := listSlices offs tbuf
               vendor := data.map (fun it => it.vendor) }

/-- The concrete two-linestring input of the end-to-end scenario (timestamps
chosen of matching length so the counting-pass assertion holds). -/
def exData : List TripItem :=
  [ { path := [(0, 0), (1, 1)], timestamps := [0, 1], vendor := 0 },
    { path := [(2, 2), (3, 3), (4, 4)], timestamps := [0, 1, 2], vendor := 0 } ]

/-- The trips output table on the concrete two-trip input. -/
def exTable : TripsTable :=
  { geometry := [[(0, 0), (1, 1)], [(2, 2), (3, 3), (4, 4)]]
    timestamps := [[0, 1], [0, 1, 2]]
    vendor := [0, 0] }

/-! ### The float32 narrowing performed by the trips coordinate buffer

The trips script parses JSON into Python floats (float64) and assigns them
into `np.zeros((coord_num, 2), dtype=np.float32)`, silently rounding each
value to float32.  The narrowing is modelled on exact rationals: every IEEE
float is a rational, and numpy's cast rounds to a 24-bit significand, to
nearest, ties to even.  All computation is on numerators and denominators so
that the model evaluates by kernel reduction. -/

/-- Fuel-driven base-2 logarithm on naturals (`natLog2 n = 0` for `n ≤ 1`);
the fuel `n` dominates the number of halvings. -/
def natLog2Aux : ℕ → ℕ → ℕ
  | 0, _ => 0
  | fuel + 1, n => if n < 2 then 0 else natLog2Aux fuel (n / 2) + 1

/-- Floor of log2 of a positive natural (0 at 0). -/
def natLog2 (n : ℕ) : ℕ := natLog2Aux n n

/-- Floor of log2 of the positive fraction `a / d`: the estimate from the
bit lengths of `a` and `d` is off by at most one and is corrected by a
single comparison. -/
def floorLog2Frac (a d : ℕ) : ℤ :=
  let k : ℤ := (natLog2 a : ℤ) - (natLog2 d : ℤ)
  if 0 ≤ k then (if d * 2 ^ k.toNat ≤ a then k else k - 1)
  else (if d ≤ a * 2 ^ (-k).toNat then k else k - 1)

/-- Round the fraction `n / d` (with `d ≠ 0`) to the nearest integer, ties
to even. -/
def roundNearestEven (n d : ℕ) : ℕ :=
  let m := n / d
  let r := n % d
  if 2 * r < d then m
  else if d < 2 * r then m + 1
  else if m % 2 = 0 then m else m + 1

/-- Model of the float64 → float32 narrowing numpy performs when assigning
into a `dtype=np.float32` buffer: round `|q|` to `m · 2^e` with a 24-bit
significand `m`, to nearest, ties to even, keeping the sign.  Exponent
clamping at the float32 overflow and subnormal thresholds is not modelled:
the datasets' coordinates and timestamps lie far inside the normal range. -/
def toFloat32 (q : ℚ) : ℚ :=
  if q.num = 0 then 0
  else
    let a : ℕ := q.num.natAbs
    let d : ℕ := q.den
    let e : ℤ := floorLog2Frac a d - 23
    let m : ℕ :=
      if 0 ≤ e then roundNearestEven a (d * 2 ^ e.toNat)
      else roundNearestEven (a * 2 ^ (-e).toNat) d
    let v : ℚ :=
      if 0 ≤ e then mkRat ((m : ℤ) * 2 ^ e.toNat) 1
      else mkRat (m : ℤ) (2 ^ (-e).toNat)
    if q.num < 0 then -v else v

/-- Narrowing of one coordinate pair by the float32 buffer assignment. -/
def narrowCoord (c : Coord) : Coord := (toFloat32 c.1, toFloat32 c.2)

/-- The float32-faithful flattening loop over `coords`: identical to
`flattenCoordsLoop` except that the slice assignment narrows every written
coordinate, as the `dtype=np.float32` buffer does. -/
def flattenCoords32Loop : List TripItem → List ℕ → List Coord → Option (List Coord)
  | [], _, buf => some buf
  | it :: rest, s :: e :: offs, buf =>
      if e - s = it.path.length then
        flattenCoords32Loop rest (e :: offs)
          (writeSlice buf s (it.path.map narrowCoord))
      else none
  | _ :: _, _, _ => none

/-- The float32-faithful coords flattening pass, from the zero-filled
buffer. -/
def flattenCoords32 (data : List TripItem) (offs : List ℕ) : Option (List Coord) :=
  flattenCoords32Loop data offs (List.replicate (coordNum data) (0, 0))

/-- The float64 value nearest 0.1 — what `r.json()` yields for the JSON
literal `0.1`: 3602879701896397 · 2⁻⁵⁵. -/
def q64tenth : ℚ := mkRat 3602879701896397 36028797018963968

/-- The float32 value nearest 0.1: 13421773 · 2⁻²⁷; this is what the
`dtype=np.float32` buffer stores for 0.1, and it differs from `q64tenth`. -/
def q32tenth : ℚ := mkRat 13421773 134217728

/-- A one-trip input whose single coordinate, the float64 value of 0.1, is
not float32-representable. -/
def exData32 : List TripItem :=
  [ { path := [(q64tenth, 0)], timestamps := [0], vendor := 0 } ]

/-! ### The point script (`examples/point/generate_data.py`) -/

/-- The fragment of the pyarrow type algebra the scripts use. -/
inductive ArrowDataType
  | float64 : ArrowDataType
  | fixedSizeList (childName : String) (child : ArrowDataType) (listSize : ℕ) : ArrowDataType
deriving DecidableEq

/-- The `PointGeometryType` extension type of the point script; the Python
class carries no instance state. -/
structure PointGeometryType where

/-- The storage type `_storage_type = pa.list_(pa.field("xy", pa.float64()), 2)`. -/
def PointGeometryType.storage_type (_ : PointGeometryType) : ArrowDataType :=
  ArrowDataType.fixedSizeList "xy" ArrowDataType.float64 2

/-- The extension name `_extension_name = "geoarrow.point"`. -/
def PointGeometryType.extension_name (_ : PointGeometryType) : String :=
  "geoarrow.point"

/-- Serialization `__arrow_ext_serialize__`: returns `b""` (bytes modelled as `List ℕ`). -/
def PointGeometryType.arrow_ext_serialize (_ : PointGeometryType) : List ℕ := []

/-- The buffer `shapely.get_coordinates(centroids)` followed by `.flatten()`: the
row-major flat buffer of the centroid coordinates. -/
def getCoordinatesFlat (centroids : List Coord) : List ℚ :=
  centroids.flatMap (fun c => [c.1, c.2])

/-- The geometry column of the point script:
`pa.FixedSizeListArray.from_arrays(coords.flatten(), 2)`. -/
def pointGeometryColumn (centroids : List Coord) : Option (List (List ℚ)) :=
  fixedSizeListFromArrays (getCoordinatesFlat centroids) 2

/-- The local input path the point script reads. -/
def point_input_path : String := "2019-01-01_performance_mobile_tiles.parquet"

/-- The download URL that appears (only) in a source comment of the point
script. -/
def point_download_url : String :=
  "https://ookla-open-data.s3.us-west-2.amazonaws.com/parquet/performance/type=mobile/year=2019/quarter=1/2019-01-01_performance_mobile_tiles.parquet"

/-- The FileNotFoundError message the underlying reader (pandas/pyarrow)
produces for a missing local file: it names only the path.  This is
external-library behavior; the script itself installs no handler. -/
def libFileNotFoundMessage (path : String) : String :=
  "FileNotFoundError: [Errno 2] No such file or directory: " ++ path

/-- Model of `pd.read_parquet` over a modelled filesystem mapping paths to parsed
row contents. -/
def pd_read_parquet (fs : String → Option α) (path : String) : Except String α :=
  match fs path with
  | some v => Except.ok v
  | none => Except.error (libFileNotFoundMessage path)

/-- The point script's `main`: reads the parquet file — with no try/except
anywhere in the script, a reader error propagates unchanged — then computes
centroids (modelled as the file's rows) and builds the geometry column. -/
def point_script (fs : String → Option (List Coord)) :
    Except String (List (List ℚ)) :=
  match pd_read_parquet fs point_input_path with
  | Except.error e => Except.error e
  | Except.ok centroids =>
    match pointGeometryColumn centroids with
    | some rows => Except.ok rows
    | none => Except.error "pyarrow: list size does not divide buffer length"

/-- Whether `pat` occurs as a contiguous run inside `big` (how we formalise "the
error message points to the URL"). -/
def containsSeq (big pat : List Char) : Bool :=
  (List.range (big.length + 1)).any (fun i => (big.drop i).take pat.length == pat)

/-! ### The root multipoint script (`generate_data.py`) -/

/-- Modelled from the spec: `shapely.multipoints` collects all input point
geometries into one MultiPoint geometry, represented here as the list of its
member coordinates (the shapely library is not part of the repository). -/
def multipoints (pts : List Coord) : List Coord := pts

/-- The two columns of `gdf2`. -/
structure GeoDataFrame where
  a : List ℤ
  geometry : List (List Coord)

/-- The frame `gdf2 = gpd.GeoDataFrame({'a': [0]}, geometry=[multipoint_geom])`. -/
def rootGdf2 (cities : List Coord) : GeoDataFrame :=
  { a := [0], geometry := [multipoints cities] }

/-- The root script's output table. -/
structure RootTable where
  a : List ℤ
  geometry : List (List Coord)
  colors : List (List ℕ)

/-- Modelled from the spec: `geopandas_to_geoarrow` encodes a GeoDataFrame
as a columnar table with one geometry row per input geometry (a MultiPoint
row being its list of coordinate pairs) and attribute columns preserved in
row order. -/
def geopandas_to_geoarrow (gdf : GeoDataFrame) : List ℤ × List (List Coord) :=
  (gdf.a, gdf.geometry)

/-- The root script: build the single-row MultiPoint GeoDataFrame, convert
it, and append `colors = pa.FixedSizeListArray.from_arrays([255, 0, 0], 3)`. -/
def rootScript (cities : List Coord) : Option RootTable :=
  match fixedSizeListFromArrays [255, 0, 0] 3 with
  | none => none
  | some colors =>
    let t := geopandas_to_geoarrow (rootGdf2 cities)
    some { a := t.1, geometry := t.2, colors := colors }

/-! ### Lemmas about the counting and flattening passes -/

lemma coordNum_nil : coordNum [] = 0 := rfl

lemma coordNum_cons (it : TripItem) (rest : List TripItem) :
    coordNum (it :: rest) = it.path.length + coordNum rest := by
  simp [coordNum]

lemma length_flatMap_path (data : List TripItem) :
    (data.flatMap (fun it => it.path)).length = coordNum data := by
  induction data with
  | nil => rfl
  | cons it rest ih => simp [coordNum_cons, ih]

lemma take_writeSlice (buf : List α) (s : ℕ) (vals : List α) (h : s ≤ buf.length) :
    (writeSlice buf s vals).take (s + vals.length) = buf.take s ++ vals := by
  have hlen : (buf.take s ++ vals).length = s + vals.length := by
    simp [Nat.min_eq_left h]
  calc (writeSlice buf s vals).take (s + vals.length)
      = ((buf.take s ++ vals) ++ buf.drop (s + vals.length)).take
          ((buf.take s ++ vals).length) := by
        simp [writeSlice, hlen]
    _ = buf.take s ++ vals := List.take_left _ _

lemma length_writeSlice (buf : List α) (s : ℕ) (vals : List α)
    (h : s + vals.length ≤ buf.length) :
    (writeSlice buf s vals).length = buf.length := by
  have hs : s ≤ buf.length := le_trans (Nat.le_add_right s vals.length) h
  simp only [writeSlice, List.length_append, List.length_take, List.length_drop,
    Nat.min_eq_left hs]
  omega

lemma flattenCoordsLoop_scanl :
    ∀ (data : List TripItem) (s : ℕ) (buf : List Coord),
      buf.length = s + coordNum data →
      flattenCoordsLoop data (List.scanl tripStep s data) buf =
        some (buf.take s ++ data.flatMap (fun it => it.path))
  | [], s, buf, h => by
      simp [flattenCoordsLoop, List.scanl]
      have : s = buf.length := by simp [h, coordNum_nil]
      simp [this]
  | it :: rest, s, buf, h => by
      rw [List.scanl]
      have hscan : ∃ t, List.scanl tripStep (tripStep s it) rest =
          tripStep s it :: t := by
        cases rest <;> exact ⟨_, rfl⟩
      obtain ⟨t, ht⟩ := hscan
      rw [ht]
      show flattenCoordsLoop (it :: rest) (s :: tripStep s it :: t) buf = _
      have hsub : tripStep s it - s = it.path.length := by
        simp [tripStep]
      rw [flattenCoordsLoop, if_pos hsub, ← ht]
      have hle : s + it.path.length ≤ buf.length := by
        rw [h, coordNum_cons]; omega
      have hlen : (writeSlice buf s it.path).length =
          tripStep s it + coordNum rest := by
        rw [length_writeSlice buf s it.path hle, h, coordNum_cons, tripStep]
        omega
      have ih := flattenCoordsLoop_scanl rest (tripStep s it)
        (writeSlice buf s it.path) hlen
      rw [ih]
      have htake : (writeSlice buf s it.path).take (tripStep s it) =
          buf.take s ++ it.path := by
        have := take_writeSlice buf s it.path
          (le_trans (Nat.le_add_right s it.path.length) hle)
        simpa [tripStep] using this
      rw [htake]
      simp

lemma flattenCoords_offsets (data : List TripItem) :
    flattenCoords data (tripsOffsets data) =
      some (data.flatMap (fun it => it.path)) := by
  have h := flattenCoordsLoop_scanl data 0 (List.replicate (coordNum data) (0, 0))
    (by simp)
  simpa [flattenCoords, tripsOffsets] using h

lemma flattenTimestampsLoop_scanl :
    ∀ (data : List TripItem) (s : ℕ) (buf : List ℚ),
      buf.length = s + coordNum data →
      (∀ it ∈ data, it.path.length = it.timestamps.length) →
      flattenTimestampsLoop data (List.scanl tripStep s data) buf =
        some (buf.take s ++ data.flatMap (fun it => it.timestamps))
  | [], s, buf, h, _ => by
      simp [flattenTimestampsLoop, List.scanl]
      have : s = buf.length := by simp [h, coordNum_nil]
      simp [this]
  | it :: rest, s, buf, h, hts => by
      rw [List.scanl]
      have hscan : ∃ t, List.scanl tripStep (tripStep s it) rest =
          tripStep s it :: t := by
        cases rest <;> exact ⟨_, rfl⟩
      obtain ⟨t, ht⟩ := hscan
      rw [ht]
      show flattenTimestampsLoop (it :: rest) (s :: tripStep s it :: t) buf = _
      have hit : it.path.length = it.timestamps.length :=
        hts it (List.mem_cons_self it rest)
      have hsub : it.timestamps.length = tripStep s it - s := by
        simp [tripStep, ← hit]
      rw [flattenTimestampsLoop, if_pos hsub, ← ht]
      have hle : s + it.timestamps.length ≤ buf.length := by
        rw [h, coordNum_cons, hit]; omega
      have hlen : (writeSlice buf s it.timestamps).length =
          tripStep s it + coordNum rest := by
        rw [length_writeSlice buf s it.timestamps hle, h, coordNum_cons, tripStep]
        omega
      have ih := flattenTimestampsLoop_scanl rest (tripStep s it)
        (writeSlice buf s it.timestamps) hlen
        (fun x hx => hts x (List.mem_cons_of_mem it hx))
      rw [ih]
      have htake : (writeSlice buf s it.timestamps).take (tripStep s it) =
          buf.take s ++ it.timestamps := by
        have := take_writeSlice buf s it.timestamps
          (le_trans (Nat.le_add_right s it.timestamps.length) hle)
        simp only [tripStep, hit]
        simpa [tripStep, hit] using this
      rw [htake]
      simp

lemma flattenTimestamps_offsets (data : List TripItem)
    (hts : ∀ it ∈ data, it.path.length = it.timestamps.length) :
    flattenTimestamps data (tripsOffsets data) =
      some (data.flatMap (fun it => it.timestamps)) := by
  have h := flattenTimestampsLoop_scanl data 0
    (List.replicate (coordNum data) 0) (by simp) hts
  simpa [flattenTimestamps, tripsOffsets] using h

lemma scanl_getD :
    ∀ (data : List TripItem) (s i : ℕ), i ≤ data.length →
      (List.scanl tripStep s data).getD i 0 = s + coordNum (data.take i)
  | [], s, i, h => by
      have hi : i = 0 := Nat.le_zero.mp h
      subst hi
      simp [List.scanl, coordNum_nil]
  | it :: rest, s, 0, _ => by
      rw [List.scanl]
      simp [coordNum_nil]
  | it :: rest, s, j + 1, h => by
      rw [List.scanl]
      have ih := scanl_getD rest (tripStep s it) j (by simpa using h)
      rw [List.getD_cons_succ, ih]
      simp only [tripStep, List.take_succ_cons, coordNum_cons]
      omega

lemma tripsOffsets_getD (data : List TripItem) (i : ℕ) (h : i ≤ data.length) :
    (tripsOffsets data).getD i 0 = coordNum (data.take i) := by
  simpa using scanl_getD data 0 i h

lemma scanl_head_eq :
    ∀ (data : List TripItem) (s : ℕ), (List.scanl tripStep s data).head? = some s
  | [], s => by simp [List.scanl]
  | it :: rest, s => by rw [List.scanl]; rfl

lemma chain_scanl :
    ∀ (data : List TripItem) (s : ℕ),
      List.Chain' (fun a b => a ≤ b) (List.scanl tripStep s data)
  | [], s => by simp [List.scanl]
  | it :: rest, s => by
      rw [List.scanl]
      refine List.chain'_cons'.mpr ⟨?_, chain_scanl rest (tripStep s it)⟩
      intro y hy
      rw [scanl_head_eq rest (tripStep s it)] at hy
      cases hy
      exact Nat.le_add_right s it.path.length

lemma coordNum_append (l₁ l₂ : List TripItem) :
    coordNum (l₁ ++ l₂) = coordNum l₁ + coordNum l₂ := by
  simp [coordNum]

lemma coordNum_take_succ (data : List TripItem) (i : ℕ) (h : i < data.length) :
    coordNum (data.take (i + 1)) =
      coordNum (data.take i) + data[i].path.length := by
  have h2 : data.take (i + 1) = data.take i ++ [data[i]] := by
    rw [List.take_succ, List.getElem?_eq_getElem h]
    rfl
  rw [h2, coordNum_append]
  simp [coordNum]

lemma tripsAsserts_iff (data : List TripItem) :
    tripsAsserts data = true ↔
      ∀ it ∈ data, it.path.length = it.timestamps.length := by
  simp [tripsAsserts, List.all_eq_true]

lemma listSlices_length :
    ∀ (offsets : List ℕ) (values : List α),
      (listSlices offsets values).length = offsets.length - 1
  | [], _ => rfl
  | [_], _ => rfl
  | s :: e :: rest, values => by
      rw [listSlices]
      simp [listSlices_length (e :: rest) values]

lemma listSlices_map_length :
    ∀ (offsets : List ℕ) (v₁ : List α) (v₂ : List β),
      v₁.length = v₂.length →
      (listSlices offsets v₁).map List.length =
        (listSlices offsets v₂).map List.length
  | [], _, _, _ => rfl
  | [_], _, _, _ => rfl
  | s :: e :: rest, v₁, v₂, h => by
      rw [listSlices, listSlices]
      simp only [List.map_cons, List.length_take, List.length_drop, h]
      rw [listSlices_map_length (e :: rest) v₁ v₂ h]

lemma flattenCoords32Loop_scanl :
    ∀ (data : List TripItem) (s : ℕ) (buf : List Coord),
      buf.length = s + coordNum data →
      flattenCoords32Loop data (List.scanl tripStep s data) buf =
        some (buf.take s ++ data.flatMap (fun it => it.path.map narrowCoord))
  | [], s, buf, h => by
      simp [flattenCoords32Loop, List.scanl]
      have : s = buf.length := by simp [h, coordNum_nil]
      simp [this]
  | it :: rest, s, buf, h => by
      rw [List.scanl]
      have hscan : ∃ t, List.scanl tripStep (tripStep s it) rest =
          tripStep s it :: t := by
        cases rest <;> exact ⟨_, rfl⟩
      obtain ⟨t, ht⟩ := hscan
      rw [ht]
      show flattenCoords32Loop (it :: rest) (s :: tripStep s it :: t) buf = _
      have hsub : tripStep s it - s = it.path.length := by
        simp [tripStep]
      rw [flattenCoords32Loop, if_pos hsub, ← ht]
      have hmlen : (it.path.map narrowCoord).length = it.path.length :=
        List.length_map _ _
      have hle : s + (it.path.map narrowCoord).length ≤ buf.length := by
        rw [hmlen, h, coordNum_cons]; omega
      have hlen : (writeSlice buf s (it.path.map narrowCoord)).length =
          tripStep s it + coordNum rest := by
        rw [length_writeSlice buf s (it.path.map narrowCoord) hle, h,
          coordNum_cons, tripStep]
        omega
      have ih := flattenCoords32Loop_scanl rest (tripStep s it)
        (writeSlice buf s (it.path.map narrowCoord)) hlen
      rw [ih]
      have htake : (writeSlice buf s (it.path.map narrowCoord)).take
          (tripStep s it) = buf.take s ++ it.path.map narrowCoord := by
        have h2 := take_writeSlice buf s (it.path.map narrowCoord)
          (le_trans (Nat.le_add_right s _) hle)
        simpa [tripStep, List.length_map] using h2
      rw [htake]
      simp

lemma flattenCoords32_offsets (data : List TripItem) :
    flattenCoords32 data (tripsOffsets data) =
      some (data.flatMap (fun it => it.path.map narrowCoord)) := by
  have h := flattenCoords32Loop_scanl data 0
    (List.replicate (coordNum data) (0, 0)) (by simp)
  simpa [flattenCoords32, tripsOffsets] using h

lemma length_flatMap_path32 (data : List TripItem) :
    (data.flatMap (fun it => it.path.map narrowCoord)).length = coordNum data := by
  induction data with
  | nil => rfl
  | cons it rest ih => simp [coordNum_cons, ih]

lemma flatMap_path32_slice (data : List TripItem) (i : ℕ) (h : i < data.length) :
    ((data.flatMap (fun it => it.path.map narrowCoord)).drop
        (coordNum (data.take i))).take (data[i].path.length) =
      data[i].path.map narrowCoord := by
  have hsplit : data.flatMap (fun it => it.path.map narrowCoord) =
      (data.take i).flatMap (fun it => it.path.map narrowCoord) ++
        (data.drop i).flatMap (fun it => it.path.map narrowCoord) := by
    rw [← List.flatMap_append, List.take_append_drop]
  have hdl : ((data.take i).flatMap (fun it => it.path.map narrowCoord)).length =
      coordNum (data.take i) := length_flatMap_path32 _
  rw [hsplit, ← hdl, List.drop_left]
  rw [List.drop_eq_getElem_cons h, List.flatMap_cons]
  have hlen : (data[i].path.map narrowCoord).length = data[i].path.length :=
    List.length_map _ _
  rw [← hlen, List.take_left]

/-! ### Lemmas about the point script -/

lemma containsSeq_length (big pat : List Char) (h : containsSeq big pat = true) :
    pat.length ≤ big.length := by
  obtain ⟨i, _, hi⟩ := List.any_eq_true.mp h
  have heq : (big.drop i).take pat.length = pat := by
    exact beq_iff_eq.mp hi
  have hl := congrArg List.length heq
  rw [List.length_take, List.length_drop] at hl
  omega

lemma length_getCoordinatesFlat (cs : List Coord) :
    (getCoordinatesFlat cs).length = 2 * cs.length := by
  induction cs with
  | nil => rfl
  | cons c rest ih =>
      simp only [getCoordinatesFlat, List.flatMap_cons] at ih ⊢
      simp only [List.length_append, ih, List.length_cons, List.length_nil]
      omega

lemma chunksOf_two_flatMap (cs : List Coord) :
    chunksOf 2 (cs.flatMap (fun c => [c.1, c.2])) =
      cs.map (fun c => [c.1, c.2]) := by
  induction cs with
  | nil => simp [chunksOf]
  | cons c rest ih =>
      rw [List.flatMap_cons]
      show chunksOf 2 (c.1 :: c.2 :: rest.flatMap (fun c => [c.1, c.2])) = _
      rw [chunksOf]
      simp [ih]

lemma pointGeometryColumn_eq (cs : List Coord) :
    pointGeometryColumn cs = some (cs.map (fun c => [c.1, c.2])) := by
  unfold pointGeometryColumn fixedSizeListFromArrays
  have hmod : (getCoordinatesFlat cs).length % 2 = 0 := by
    rw [length_getCoordinatesFlat]
    omega
  rw [if_pos ⟨two_ne_zero, hmod⟩]
  exact congrArg some (chunksOf_two_flatMap cs)

/-! ### Further shared lemmas -/

lemma countingPass_eq (data : List TripItem) (offs : List ℕ)
    (h : countingPass data = some offs) :
    offs = tripsOffsets data ∧ tripsAsserts data = true := by
  by_cases ha : tripsAsserts data
  · rw [countingPass, if_pos ha] at h
    exact ⟨(Option.some.inj h).symm, ha⟩
  · rw [countingPass, if_neg ha] at h
    exact Option.noConfusion h

lemma length_flatMap_timestamps (data : List TripItem)
    (hts : ∀ it ∈ data, it.path.length = it.timestamps.length) :
    (data.flatMap (fun it => it.timestamps)).length = coordNum data := by
  induction data with
  | nil => rfl
  | cons it rest ih =>
      simp only [List.flatMap_cons, List.length_append, coordNum_cons]
      rw [ih (fun x hx => hts x (List.mem_cons_of_mem it hx)),
        ← hts it (List.mem_cons_self it rest)]

lemma tripsScript_eq_some (data : List TripItem) (t : TripsTable)
    (h : tripsScript data = some t) :
    tripsAsserts data = true ∧
    t.geometry =
      listSlices (tripsOffsets data) (data.flatMap (fun it => it.path)) ∧
    t.timestamps =
      listSlices (tripsOffsets data) (data.flatMap (fun it => it.timestamps)) ∧
    t.vendor = data.map (fun it => it.vendor) := by
  cases hc : countingPass data with
  | none =>
      rw [tripsScript] at h
      simp only [hc] at h
      exact Option.noConfusion h
  | some offs =>
      obtain ⟨hoffs, ha⟩ := countingPass_eq data offs hc
      subst hoffs
      rw [tripsScript] at h
      simp only [hc, flattenCoords_offsets data,
        flattenTimestamps_offsets data ((tripsAsserts_iff data).mp ha)] at h
      cases h
      exact ⟨ha, rfl, rfl, rfl⟩

/-! ### The claims -/

/-- C1: for the input collection of 2 linestrings
[[(0,0),(1,1)], [(2,2),(3,3),(4,4)]], the counting pass produces the offset
array [0, 2, 5] and the flattening pass produces the flat coordinate buffer
[0,0,1,1,2,2,3,3,4,4]. -/
theorem trips_example_two_pass :
    countingPass exData = some [0, 2, 5] ∧
    (flattenCoords exData [0, 2, 5]).map flatXY =
      some [0, 0, 1, 1, 2, 2, 3, 3, 4, 4] := by
  decide

/-- C2 counterexample: the round-trip is not exact on the real float32
buffer.  On a one-trip input whose coordinate is the float64 value of 0.1,
the counting pass yields offsets [0, 1], the float32 flattening pass stores
the narrowed value 13421773/2²⁷, and slicing the flat buffer between
offsets[0] and offsets[1] yields that narrowed value — not the input
coordinate list. -/
theorem trips_roundtrip_counterexample :
    countingPass exData32 = some [0, 1] ∧
    flattenCoords32 exData32 [0, 1] = some [(q32tenth, 0)] ∧
    exData32.map (fun it => it.path) = [[(q64tenth, 0)]] ∧
    (([(q32tenth, 0)] : List Coord).drop ([0, 1].getD 0 0)).take
        ([0, 1].getD 1 0 - [0, 1].getD 0 0) ≠ [(q64tenth, 0)] := by
  decide

/-- C2 (amended): round-trip up to float32 narrowing: for every input that
passes the counting pass, slicing the float32 flat coordinate buffer between
offsets[i] and offsets[i+1] yields exactly the coordinate list of input
geometry i with each coordinate narrowed to float32 — hence the original
coordinates exactly when all of them are float32-representable. -/
theorem trips_roundtrip32 (data : List TripItem) (offs : List ℕ)
    (cbuf : List Coord) (h : countingPass data = some offs)
    (hc : flattenCoords32 data offs = some cbuf)
    (i : ℕ) (hi : i < data.length) :
    (cbuf.drop (offs.getD i 0)).take (offs.getD (i + 1) 0 - offs.getD i 0) =
      data[i].path.map narrowCoord := by
  obtain ⟨hoffs, -⟩ := countingPass_eq data offs h
  subst hoffs
  rw [flattenCoords32_offsets data] at hc
  have hcb : cbuf = data.flatMap (fun it => it.path.map narrowCoord) :=
    (Option.some.inj hc).symm
  subst hcb
  rw [tripsOffsets_getD data i (le_of_lt hi), tripsOffsets_getD data (i + 1) hi,
    coordNum_take_succ data i hi]
  have hdiff : coordNum (data.take i) + data[i].path.length -
      coordNum (data.take i) = data[i].path.length := by omega
  rw [hdiff]
  exact flatMap_path32_slice data i hi

/-- C2 witness: the narrowed round-trip at the concrete one-trip input whose
coordinate is the float64 value of 0.1. -/
theorem trips_roundtrip32_witness :
    (([(q32tenth, 0)] : List Coord).drop ((tripsOffsets exData32).getD 0 0)).take
        ((tripsOffsets exData32).getD (0 + 1) 0 - (tripsOffsets exData32).getD 0 0) =
      [(q64tenth, 0)].map narrowCoord :=
  trips_roundtrip32 exData32 (tripsOffsets exData32) [(q32tenth, 0)]
    (by decide) (by decide) 0 (by decide)

/-- C3: the offset array built by the counting pass is monotonically
non-decreasing, starts at 0, has length N+1 for N input geometries, and its
consecutive differences are the per-geometry coordinate counts. -/
theorem trips_offsets_invariants (data : List TripItem) :
    List.Chain' (fun a b => a ≤ b) (tripsOffsets data) ∧
    (tripsOffsets data).getD 0 0 = 0 ∧
    (tripsOffsets data).length = data.length + 1 ∧
    ∀ i (hi : i < data.length),
      (tripsOffsets data).getD (i + 1) 0 - (tripsOffsets data).getD i 0 =
        data[i].path.length := by
  refine ⟨chain_scanl data 0, ?_, ?_, ?_⟩
  · rw [tripsOffsets_getD data 0 (Nat.zero_le _)]
    simp [coordNum_nil]
  · simp [tripsOffsets, List.length_scanl]
  · intro i hi
    rw [tripsOffsets_getD data i (le_of_lt hi),
      tripsOffsets_getD data (i + 1) hi, coordNum_take_succ data i hi]
    omega

/-- C3 witness: the offsets invariants instantiated at the concrete two-trip
input, difference taken at index 0. -/
theorem trips_offsets_invariants_witness :
    List.Chain' (fun a b => a ≤ b) (tripsOffsets exData) ∧
    (tripsOffsets exData).getD 0 0 = 0 ∧
    (tripsOffsets exData).length = exData.length + 1 ∧
    (tripsOffsets exData).getD 1 0 - (tripsOffsets exData).getD 0 0 = 2 := by
  obtain ⟨h1, h2, h3, h4⟩ := trips_offsets_invariants exData
  exact ⟨h1, h2, h3, h4 0 (by decide)⟩

/-- C8: the flattening-pass assertion
`end_offset - start_offset == path.shape[0]` never fails once the counting
pass has completed: the flattening pass succeeds and yields the
concatenation of all paths. -/
theorem trips_flatten_assert_unreachable (data : List TripItem)
    (offs : List ℕ) (h : countingPass data = some offs) :
    flattenCoords data offs = some (data.flatMap (fun it => it.path)) := by
  obtain ⟨hoffs, -⟩ := countingPass_eq data offs h
  subst hoffs
  exact flattenCoords_offsets data

/-- C8 witness: the flattening pass succeeds on the concrete two-trip
input. -/
theorem trips_flatten_assert_unreachable_witness :
    flattenCoords exData [0, 2, 5] =
      some [(0, 0), (1, 1), (2, 2), (3, 3), (4, 4)] :=
  trips_flatten_assert_unreachable exData [0, 2, 5] (by decide)

/-- C9: the geometry and timestamps columns of the trips table are list
arrays over the same offsets, so every output row carries exactly as many
timestamp values as coordinate pairs. -/
theorem trips_timestamps_geometry_aligned (data : List TripItem)
    (t : TripsTable) (h : tripsScript data = some t) :
    t.timestamps.map List.length = t.geometry.map List.length := by
  obtain ⟨ha, hg, ht, -⟩ := tripsScript_eq_some data t h
  rw [hg, ht]
  exact listSlices_map_length (tripsOffsets data) _ _
    (by rw [length_flatMap_timestamps data ((tripsAsserts_iff data).mp ha),
          length_flatMap_path])

/-- C9 witness: on the concrete two-trip input the per-row timestamp counts
equal the per-row coordinate-pair counts. -/
theorem trips_timestamps_geometry_aligned_witness :
    tripsScript exData = some exTable ∧
    exTable.timestamps.map List.length = exTable.geometry.map List.length :=
  ⟨by decide, trips_timestamps_geometry_aligned exData exTable (by decide)⟩

/-- C4: the number of rows of the output geometry column equals the number
of input geometries, both for the trips table and for the point script's
fixed-size-list geometry column. -/
theorem output_rows_eq_input_geometries :
    (∀ (data : List TripItem) (t : TripsTable),
        tripsScript data = some t → t.geometry.length = data.length) ∧
    (∀ (centroids : List Coord) (rows : List (List ℚ)),
        pointGeometryColumn centroids = some rows →
          rows.length = centroids.length) := by
  constructor
  · intro data t h
    obtain ⟨-, hg, -, -⟩ := tripsScript_eq_some data t h
    rw [hg, listSlices_length, tripsOffsets, List.length_scanl]
    omega
  · intro cs rows h
    rw [pointGeometryColumn_eq] at h
    have hr : rows = cs.map (fun c => [c.1, c.2]) := (Option.some.inj h).symm
    rw [hr, List.length_map]

/-- C4 witness: row counts at concrete inputs, for both scripts. -/
theorem output_rows_eq_input_geometries_witness :
    tripsScript exData = some exTable ∧
    exTable.geometry.length = exData.length ∧
    pointGeometryColumn [(1, 2), (3, 4), (5, 6)] =
      some [[1, 2], [3, 4], [5, 6]] ∧
    ([[1, 2], [3, 4], [5, 6]] : List (List ℚ)).length =
      ([(1, 2), (3, 4), (5, 6)] : List Coord).length :=
  ⟨by decide,
   output_rows_eq_input_geometries.1 exData exTable (by decide),
   pointGeometryColumn_eq [(1, 2), (3, 4), (5, 6)],
   output_rows_eq_input_geometries.2 [(1, 2), (3, 4), (5, 6)]
     [[1, 2], [3, 4], [5, 6]] (pointGeometryColumn_eq [(1, 2), (3, 4), (5, 6)])⟩

set_option maxRecDepth 4000 in
/-- C5 counterexample: with the expected input file missing, the point
script's raised error is the underlying library's plain file-not-found
message, and the expected download URL does not occur anywhere in that
message — the URL exists only in a source comment. -/
theorem point_missing_file_counterexample :
    point_script (fun _ => none) =
      Except.error (libFileNotFoundMessage point_input_path) ∧
    containsSeq (libFileNotFoundMessage point_input_path).data
      point_download_url.data = false := by
  refine ⟨rfl, ?_⟩
  by_contra hne
  have hb : containsSeq (libFileNotFoundMessage point_input_path).data
      point_download_url.data = true := by
    cases hx : containsSeq (libFileNotFoundMessage point_input_path).data
        point_download_url.data
    · exact absurd hx hne
    · rfl
  have hlen := containsSeq_length _ _ hb
  exact absurd hlen (by decide)

/-- C5 (amended): when the expected local input file is missing, the point
script — containing no try/except — propagates the underlying library's
plain file-not-found error unchanged, rather than raising any message of its
own. -/
theorem point_missing_file_propagates (fs : String → Option (List Coord))
    (h : fs point_input_path = none) :
    point_script fs =
      Except.error (libFileNotFoundMessage point_input_path) := by
  rw [point_script, pd_read_parquet, h]

/-- C5 witness: the propagation theorem at the empty filesystem. -/
theorem point_missing_file_propagates_witness :
    point_script (fun _ => none) =
      Except.error (libFileNotFoundMessage point_input_path) :=
  point_missing_file_propagates (fun _ => none) rfl

/-- C6: point geometries are encoded as a fixed-size list of exactly 2
float values per row: the extension storage type is
fixed_size_list<xy: float64>[2], and the geometry array groups the flattened
centroid buffer into consecutive pairs, one per input row. -/
theorem point_fixed_size_encoding :
    (∀ t : PointGeometryType,
        t.storage_type =
          ArrowDataType.fixedSizeList "xy" ArrowDataType.float64 2) ∧
    (∀ centroids : List Coord,
        pointGeometryColumn centroids =
          some (centroids.map (fun c => [c.1, c.2]))) ∧
    (∀ (centroids : List Coord) (rows : List (List ℚ)) (row : List ℚ),
        pointGeometryColumn centroids = some rows → row ∈ rows →
          row.length = 2) := by
  refine ⟨fun _ => rfl, pointGeometryColumn_eq, ?_⟩
  intro cs rows row h hrow
  rw [pointGeometryColumn_eq] at h
  have hr : rows = cs.map (fun c => [c.1, c.2]) := (Option.some.inj h).symm
  subst hr
  obtain ⟨c, -, hc⟩ := List.mem_map.mp hrow
  rw [← hc]
  rfl

/-- C6 witness: the fixed-size-2 encoding at a concrete centroid list. -/
theorem point_fixed_size_encoding_witness :
    PointGeometryType.storage_type {} =
      ArrowDataType.fixedSizeList "xy" ArrowDataType.float64 2 ∧
    pointGeometryColumn [(1, 2), (3, 4)] = some [[1, 2], [3, 4]] ∧
    ([(1 : ℚ), 2]).length = 2 := by
  obtain ⟨h1, h2, h3⟩ := point_fixed_size_encoding
  exact ⟨h1 {}, h2 [(1, 2), (3, 4)],
    h3 [(1, 2), (3, 4)] [[1, 2], [3, 4]] [1, 2] (h2 [(1, 2), (3, 4)])
      (by decide)⟩

/-- C7: `__arrow_ext_serialize__` returns the empty byte string for every
instance of the point extension type. -/
theorem point_ext_serialize_empty (t : PointGeometryType) :
    t.arrow_ext_serialize = [] := rfl

/-- C10: the root multipoint script collapses every input city point into
one single MultiPoint geometry: for any input city list its output table has
exactly one row — one geometry holding all the city coordinates, one
attribute value a = 0, and one 3-element color entry [255, 0, 0]. -/
theorem root_single_multipoint_row (cities : List Coord) :
    rootScript cities =
      some { a := [0], geometry := [multipoints cities],
             colors := [[255, 0, 0]] } ∧
    (rootScript cities).map (fun t => t.geometry.length) = some 1 := by
  have hcolors : fixedSizeListFromArrays ([255, 0, 0] : List ℕ) 3 =
      some [[255, 0, 0]] := by
    simp [fixedSizeListFromArrays, chunksOf]
  constructor
  · rw [rootScript, hcolors]
    rfl
  · rw [rootScript, hcolors]
    rfl

end GeoArrowData
